import Mathlib

/-!
# Verification of the PDF dot-matrix overlay tool

Shallow embedding of `src/main.py` (PDF-Spliter): the layout engine
(`calculate_dot_positions`, unit conversions), the overlay compositor
(`create_dot_matrix_overlay`, `create_half_white_overlay`), the page
processing pipeline (`process_pdf`) and the configuration loader
(`load_config_from_toml`).

Python floats are modelled by exact rationals (`ℚ`); the reportlab canvas
is modelled as the list of draw commands emitted onto it, with the canvas
graphics state (fill/stroke colour, alpha, line width) baked into each
command, since every source function sets the state immediately before the
draw calls that use it.  PDF pages are modelled as lists of layers,
bottom-to-top; `pypdf`'s `merge_page(other, over)` is list concatenation
with explicit z-order.
-/

namespace PDFSpliter

/-- Unit conversion constant: `POINTS_PER_INCH = 72`. -/
def POINTS_PER_INCH : ℚ := 72

/-- Unit conversion constant: `MM_PER_INCH = 25.4`. -/
def MM_PER_INCH : ℚ := 25.4

/-- `MM_TO_POINTS = POINTS_PER_INCH / MM_PER_INCH`. -/
def MM_TO_POINTS : ℚ := POINTS_PER_INCH / MM_PER_INCH

/-- `mm_to_points(millimeters) = millimeters * MM_TO_POINTS`. -/
def mm_to_points (millimeters : ℚ) : ℚ := millimeters * MM_TO_POINTS

/-- `points_to_mm(points) = points / MM_TO_POINTS`. -/
def points_to_mm (points : ℚ) : ℚ := points / MM_TO_POINTS

/-- The `DotMatrixConfig` frozen dataclass. -/
structure DotMatrixConfig where
  dot_spacing_mm : ℚ
  dot_diameter_mm : ℚ
  dot_color_hex : String
  opacity : ℚ
deriving DecidableEq, Repr

/-- The dataclass defaults: spacing 10 mm, diameter 0.4 mm, colour
`"#a0a0a0"`, opacity 1.0. -/
def defaultConfig : DotMatrixConfig := ⟨10, 0.4, "#a0a0a0", 1⟩

/-- Property `dot_radius_mm = dot_diameter_mm / 2`. -/
def DotMatrixConfig.dot_radius_mm (c : DotMatrixConfig) : ℚ :=
  c.dot_diameter_mm / 2

/-- An RGB triple, each channel in the 0–1 range (reportlab convention). -/
structure RGB where
  r : ℚ
  g : ℚ
  b : ℚ
deriving DecidableEq, Repr

/-- Value of one hexadecimal digit, as in Python `int(_, 16)`. -/
def hexDigitVal (c : Char) : Nat :=
  if '0' ≤ c ∧ c ≤ '9' then c.toNat - '0'.toNat
  else if 'a' ≤ c ∧ c ≤ 'f' then c.toNat - 'a'.toNat + 10
  else if 'A' ≤ c ∧ c ≤ 'F' then c.toNat - 'A'.toNat + 10
  else 0

/-- Two-digit hexadecimal value, as in Python `int(hex_color[i:i+2], 16)`. -/
def hexByte (c1 c2 : Char) : Nat := 16 * hexDigitVal c1 + hexDigitVal c2

/-- Property `dot_color_rgb`: strip leading `#`, parse three hex byte
pairs, scale each to 0–1.  (Python raises on a malformed hex string; the
embedding returns black there, a case no claim touches.) -/
def DotMatrixConfig.dot_color_rgb (c : DotMatrixConfig) : RGB :=
  match c.dot_color_hex.toList.dropWhile (fun ch => ch == '#') with
  | c0 :: c1 :: c2 :: c3 :: c4 :: c5 :: _ =>
      ⟨(hexByte c0 c1 : ℚ) / 255, (hexByte c2 c3 : ℚ) / 255, (hexByte c4 c5 : ℚ) / 255⟩
  | _ => ⟨0, 0, 0⟩

/-- `calculate_dot_positions(dimension_mm, spacing_mm)`:
`num_intervals = floor(dimension_mm / spacing_mm)`;
`span = num_intervals * spacing_mm`; `margin = (dimension_mm - span) / 2`;
return `[margin + i * spacing_mm for i in range(num_intervals + 1)]`.
Python's `range(n)` is empty for `n ≤ 0`, which `Int.toNat` reproduces. -/
def calculate_dot_positions (dimension_mm spacing_mm : ℚ) : List ℚ :=
  let num_intervals : ℤ := ⌊dimension_mm / spacing_mm⌋
  let span : ℚ := num_intervals * spacing_mm
  let margin : ℚ := (dimension_mm - span) / 2
  (List.range (num_intervals + 1).toNat).map
    (fun i : ℕ => margin + (i : ℚ) * spacing_mm)

/-- `calculate_dot_positions` as executed by Python: float division by
zero raises `ZeroDivisionError`, so `spacing_mm = 0` is an error; every
other input returns normally. -/
def calculate_dot_positions_checked (dimension_mm spacing_mm : ℚ) :
    Except String (List ℚ) :=
  if spacing_mm = 0 then Except.error "ZeroDivisionError"
  else Except.ok (calculate_dot_positions dimension_mm spacing_mm)

/-- A draw command emitted onto a reportlab canvas, with the relevant
graphics state recorded in the command itself. -/
inductive DrawCmd where
  | circle (cx cy radius : ℚ) (fillColor : RGB) (fillAlpha : ℚ)
  | rect (x y w h : ℚ) (fillColor : RGB) (strokeOn fillOn : Bool)
  | line (x1 y1 x2 y2 : ℚ) (lineWidth : ℚ) (strokeColor : RGB) (strokeAlpha : ℚ)
deriving DecidableEq, Repr

/-- `create_half_white_overlay(width_pt, height_pt, cover_side)`:
a single white rectangle (`stroke=0, fill=1`) over the left half
(`rect(0, 0, width/2, height)`) when `cover_side == "left"`, else over
the right half (`rect(width/2, 0, width/2, height)`). -/
def create_half_white_overlay (width_pt height_pt : ℚ) (cover_side : String) :
    List DrawCmd :=
  let half_width := width_pt / 2
  if cover_side = "left" then
    [DrawCmd.rect 0 0 half_width height_pt ⟨1, 1, 1⟩ false true]
  else
    [DrawCmd.rect half_width 0 half_width height_pt ⟨1, 1, 1⟩ false true]

/-- `create_dot_matrix_overlay(width_pt, height_pt, config, split_border)`:
convert dimensions to mm, compute x/y position sets, draw a filled circle
at every (x, y) combination in the configured colour and opacity, then, if
`split_border` and the y positions are non-empty, one vertical line at
`width_pt / 2` from the first to the last y offset with line width equal
to the dot diameter, same colour and opacity. -/
def create_dot_matrix_overlay (width_pt height_pt : ℚ)
    (config : DotMatrixConfig) (split_border : Bool) : List DrawCmd :=
  let width_mm := points_to_mm width_pt
  let height_mm := points_to_mm height_pt
  let x_positions := calculate_dot_positions width_mm config.dot_spacing_mm
  let y_positions := calculate_dot_positions height_mm config.dot_spacing_mm
  let rgb := config.dot_color_rgb
  let radius_pt := mm_to_points config.dot_radius_mm
  let dots := x_positions.flatMap (fun x_mm => y_positions.map (fun y_mm =>
    DrawCmd.circle (mm_to_points x_mm) (mm_to_points y_mm) radius_pt rgb config.opacity))
  let border :=
    if split_border && !y_positions.isEmpty then
      [DrawCmd.line (width_pt / 2) (mm_to_points y_positions.headI)
        (width_pt / 2) (mm_to_points y_positions.getLastI)
        (mm_to_points config.dot_diameter_mm) rgb config.opacity]
    else []
  dots ++ border

/-- Modelled from the spec: the rejection of an out-of-range opacity
supplied directly to the rendering function happens inside the external
drawing surface (reportlab's `Canvas.setFillAlpha` / `setStrokeAlpha`,
called at `src/main.py:146-147`), whose code is not part of this
repository; per the spec, opacity outside `[0.0, 1.0]` "is rejected as
`InvalidParameter`" and no drawable is produced.  The alpha is set before
any dot is drawn, so the error precedes all drawing. -/
def create_dot_matrix_overlay_checked (width_pt height_pt : ℚ)
    (config : DotMatrixConfig) (split_border : Bool) :
    Except String (List DrawCmd) :=
  if 0 ≤ config.opacity ∧ config.opacity ≤ 1 then
    Except.ok (create_dot_matrix_overlay width_pt height_pt config split_border)
  else Except.error "InvalidParameter"

/-- An input page: its MediaBox dimensions in points and its (opaque)
content stream, identified by a number. -/
structure InPage where
  width_pt : ℚ
  height_pt : ℚ
  content : Nat
deriving DecidableEq, Repr

/-- One layer of an output page: either an original page's content or an
overlay generated by this tool. -/
inductive Layer where
  | original (content : Nat)
  | overlay (cmds : List DrawCmd)
deriving DecidableEq, Repr

/-- `pypdf`'s `base.merge_page(addition, over)`: layer lists are ordered
bottom-to-top; `over=True` stacks the addition on top of the base,
`over=False` puts it underneath. -/
def merge_page (base addition : List Layer) (over : Bool) : List Layer :=
  if over then base ++ addition else addition ++ base

/-- `process_pdf(input, output, config, split, split_border)`, restricted
to the page transformation (file I/O is external): for each input page in
order, build the dot overlay with `split_border=(split and split_border)`;
in split mode emit, for `cover_side` in `("right", "left")`, the white
half-overlay page with the original merged under it and the dot overlay
merged on top; otherwise merge the dot overlay onto the original page. -/
def process_pdf (pages : List InPage) (config : DotMatrixConfig)
    (split split_border : Bool) : List (List Layer) :=
  pages.flatMap (fun page =>
    let dot_overlay := create_dot_matrix_overlay page.width_pt page.height_pt
      config (split && split_border)
    if split then
      (["right", "left"] : List String).map (fun cover_side =>
        let white := create_half_white_overlay page.width_pt page.height_pt cover_side
        let output_page := [Layer.overlay white]
        let output_page := merge_page output_page [Layer.original page.content] false
        merge_page output_page [Layer.overlay dot_overlay] true)
    else
      [merge_page [Layer.original page.content] [Layer.overlay dot_overlay] true])

/-- The `[dot_matrix]` table of a parsed TOML config file: each key either
present or absent. -/
structure TomlDotMatrix where
  spacing_mm : Option ℚ
  diameter_mm : Option ℚ
  color_hex : Option String
  opacity : Option ℚ
deriving DecidableEq, Repr

/-- `load_config_from_toml(config_path)`, with file existence and the
parsed `[dot_matrix]` table as inputs (file I/O and TOML parsing are
external; the `except` fallback to defaults on a parse failure is likewise
outside this model).  Returns the configuration together with whether the
out-of-range-opacity warning was printed: a missing file gives the
defaults; otherwise each field falls back to its dataclass default, and an
opacity outside `[0.0, 1.0]` is replaced by the default with a warning. -/
def load_config_from_toml (file_exists : Bool) (dot_matrix : TomlDotMatrix) :
    DotMatrixConfig × Bool :=
  if !file_exists then (defaultConfig, false)
  else
    let opacity0 := dot_matrix.opacity.getD defaultConfig.opacity
    let ok : Bool := decide (0 ≤ opacity0 ∧ opacity0 ≤ 1)
    let opacity := if ok then opacity0 else defaultConfig.opacity
    (⟨dot_matrix.spacing_mm.getD defaultConfig.dot_spacing_mm,
      dot_matrix.diameter_mm.getD defaultConfig.dot_diameter_mm,
      dot_matrix.color_hex.getD defaultConfig.dot_color_hex,
      opacity⟩, !ok)

/-- The axis-aligned closed rectangle `[x, x+w] × [y, y+h]` drawn by
`canvas.rect(x, y, w, h)` contains the point `(px, py)`. -/
def rect_covers (x y w h px py : ℚ) : Prop :=
  x ≤ px ∧ px ≤ x + w ∧ y ≤ py ∧ py ≤ y + h

/-- Whether a draw command is a (border) line. -/
def isBorderLine : DrawCmd → Bool
  | DrawCmd.line _ _ _ _ _ _ _ => true
  | _ => false

/-- All draw commands of an output page's overlay layers, bottom-to-top. -/
def page_cmds : List Layer → List DrawCmd
  | [] => []
  | Layer.original _ :: rest => page_cmds rest
  | Layer.overlay cmds :: rest => cmds ++ page_cmds rest

/-! ## Helper lemmas on the layout engine -/

theorem calculate_dot_positions_def (d s : ℚ) :
    calculate_dot_positions d s =
      (List.range (⌊d / s⌋ + 1).toNat).map
        (fun i : ℕ => (d - ⌊d / s⌋ * s) / 2 + i * s) := by
  simp only [calculate_dot_positions]

theorem floor_div_nonneg (d s : ℚ) (hd : 0 < d) (hs : 0 < s) :
    0 ≤ ⌊d / s⌋ :=
  Int.floor_nonneg.mpr (div_pos hd hs).le

theorem length_calculate_dot_positions (d s : ℚ) (h : 0 ≤ ⌊d / s⌋) :
    (calculate_dot_positions d s).length = ⌊d / s⌋.toNat + 1 := by
  rw [calculate_dot_positions_def, List.length_map, List.length_range]
  omega

theorem headI_calculate_dot_positions (d s : ℚ) (h : 0 ≤ ⌊d / s⌋) :
    (calculate_dot_positions d s).headI = (d - ⌊d / s⌋ * s) / 2 := by
  have hto : (⌊d / s⌋ + 1).toNat = ⌊d / s⌋.toNat + 1 := by omega
  rw [calculate_dot_positions_def, hto, List.range_succ_eq_map,
    List.map_cons, List.headI]
  norm_num

theorem getLastI_calculate_dot_positions (d s : ℚ) (h : 0 ≤ ⌊d / s⌋) :
    (calculate_dot_positions d s).getLastI
      = (d - ⌊d / s⌋ * s) / 2 + ⌊d / s⌋.toNat * s := by
  have hto : (⌊d / s⌋ + 1).toNat = ⌊d / s⌋.toNat + 1 := by omega
  rw [calculate_dot_positions_def, hto, List.range_succ, List.map_append,
    List.map_singleton, List.getLastI_eq_getLast?, List.getLast?_concat]

theorem calculate_dot_positions_ne_nil (d s : ℚ) (h : 0 ≤ ⌊d / s⌋) :
    calculate_dot_positions d s ≠ [] := by
  have hl := length_calculate_dot_positions d s h
  intro hc
  rw [hc] at hl
  simp at hl

theorem span_le_dim (d s : ℚ) (hs : 0 < s) : (⌊d / s⌋ : ℚ) * s ≤ d := by
  have h := Int.floor_le (d / s)
  have h2 : (⌊d / s⌋ : ℚ) * s ≤ (d / s) * s := mul_le_mul_of_nonneg_right h hs.le
  calc (⌊d / s⌋ : ℚ) * s ≤ (d / s) * s := h2
    _ = d := div_mul_cancel₀ d (ne_of_gt hs)

/-! ## Claims about the layout engine -/

/-- C1: for positive `dimension` and `spacing`, `calculate_dot_positions`
returns exactly `[margin + i * spacing for i in 0..intervals]` with
`intervals = floor(dimension / spacing)`, `span = intervals * spacing`,
`margin = (dimension - span) / 2`; the length is `intervals + 1`, hence at
least 1, and when `dimension < spacing` the result is the single centered
offset `[dimension / 2]`. -/
theorem C1_positions_formula (d s : ℚ) (hd : 0 < d) (hs : 0 < s) :
    calculate_dot_positions d s =
      (List.range (⌊d / s⌋.toNat + 1)).map
        (fun i : ℕ => (d - ⌊d / s⌋ * s) / 2 + i * s)
    ∧ (calculate_dot_positions d s).length = ⌊d / s⌋.toNat + 1
    ∧ 1 ≤ (calculate_dot_positions d s).length
    ∧ (d < s → calculate_dot_positions d s = [d / 2]) := by
  have h0 : 0 ≤ ⌊d / s⌋ := floor_div_nonneg d s hd hs
  have hto : (⌊d / s⌋ + 1).toNat = ⌊d / s⌋.toNat + 1 := by omega
  refine ⟨?_, length_calculate_dot_positions d s h0, ?_, ?_⟩
  · rw [calculate_dot_positions_def, hto]
  · rw [length_calculate_dot_positions d s h0]
    omega
  · intro hlt
    have hz : ⌊d / s⌋ = 0 :=
      Int.floor_eq_zero_iff.mpr ⟨(div_pos hd hs).le, (div_lt_one hs).mpr hlt⟩
    rw [calculate_dot_positions_def, hz]
    norm_num [List.range_succ]

/-- C1 witness: `calculate_dot_positions 5 10 = [5/2]`, the single
centered dot of the spec's `dimension=5, spacing=10` example. -/
theorem C1_positions_formula_witness :
    (0 : ℚ) < 5 ∧ (0 : ℚ) < 10 ∧ (5 : ℚ) < 10
      ∧ calculate_dot_positions 5 10 = [5 / 2] :=
  ⟨by norm_num, by norm_num, by norm_num,
    (C1_positions_formula 5 10 (by norm_num) (by norm_num)).2.2.2 (by norm_num)⟩

/-- C2: for positive `dimension` and `spacing`, the position sequence is
non-empty and strictly ascending, its last element minus its first equals
`floor(dimension / spacing) * spacing`, and it is symmetric within the
page: the first offset equals `dimension` minus the last offset. -/
theorem C2_positions_shape (d s : ℚ) (hd : 0 < d) (hs : 0 < s) :
    calculate_dot_positions d s ≠ []
    ∧ (calculate_dot_positions d s).Pairwise (· < ·)
    ∧ (calculate_dot_positions d s).getLastI
        - (calculate_dot_positions d s).headI = ⌊d / s⌋ * s
    ∧ (calculate_dot_positions d s).headI
        = d - (calculate_dot_positions d s).getLastI := by
  have h0 : 0 ≤ ⌊d / s⌋ := floor_div_nonneg d s hd hs
  have hcast : ((⌊d / s⌋.toNat : ℕ) : ℚ) = (⌊d / s⌋ : ℚ) := by
    exact_mod_cast congrArg (fun z : ℤ => (z : ℚ)) (Int.toNat_of_nonneg h0)
  refine ⟨calculate_dot_positions_ne_nil d s h0, ?_, ?_, ?_⟩
  · rw [calculate_dot_positions_def, List.pairwise_map]
    refine (List.pairwise_lt_range _).imp ?_
    intro a b hab
    have hab' : (a : ℚ) < b := by exact_mod_cast hab
    exact add_lt_add_left (mul_lt_mul_of_pos_right hab' hs) _
  · rw [getLastI_calculate_dot_positions d s h0,
      headI_calculate_dot_positions d s h0, hcast]
    ring
  · rw [getLastI_calculate_dot_positions d s h0,
      headI_calculate_dot_positions d s h0, hcast]
    ring

/-- C2 witness at `dimension=95, spacing=10` (the spec's `margin = 2.5`
example). -/
theorem C2_positions_shape_witness :
    (0 : ℚ) < 95 ∧ (0 : ℚ) < 10
    ∧ (calculate_dot_positions 95 10 ≠ []
      ∧ (calculate_dot_positions 95 10).Pairwise (· < ·)
      ∧ (calculate_dot_positions 95 10).getLastI
          - (calculate_dot_positions 95 10).headI = ⌊(95 : ℚ) / 10⌋ * 10
      ∧ (calculate_dot_positions 95 10).headI
          = 95 - (calculate_dot_positions 95 10).getLastI) :=
  ⟨by norm_num, by norm_num, C2_positions_shape 95 10 (by norm_num) (by norm_num)⟩

/-- C4: the unit conversions are mutually inverse — exactly so over exact
arithmetic, hence in particular within `1e-9` relative tolerance as the
claim states. -/
theorem C4_roundtrip (x : ℚ) (hx : 0 < x) :
    points_to_mm (mm_to_points x) = x
    ∧ mm_to_points (points_to_mm x) = x
    ∧ |points_to_mm (mm_to_points x) - x| ≤ (1 / 1000000000) * x := by
  have hM : MM_TO_POINTS ≠ 0 := by
    norm_num [MM_TO_POINTS, POINTS_PER_INCH, MM_PER_INCH]
  have h1 : points_to_mm (mm_to_points x) = x := by
    rw [points_to_mm, mm_to_points, mul_div_cancel_right₀ x hM]
  have h2 : mm_to_points (points_to_mm x) = x := by
    rw [points_to_mm, mm_to_points, div_mul_cancel₀ x hM]
  refine ⟨h1, h2, ?_⟩
  rw [h1, sub_self, abs_zero]
  positivity

/-- C4 witness at `x = 25.4` (one inch in millimeters). -/
theorem C4_roundtrip_witness :
    (0 : ℚ) < 25.4
    ∧ (points_to_mm (mm_to_points 25.4) = 25.4
      ∧ mm_to_points (points_to_mm 25.4) = 25.4
      ∧ |points_to_mm (mm_to_points 25.4) - 25.4| ≤ (1 / 1000000000) * 25.4) :=
  ⟨by norm_num, C4_roundtrip 25.4 (by norm_num)⟩

/-- C10: for positive `dimension` and `spacing`, the computed margin is
nonnegative and every returned offset lies within `[0, dimension]`. -/
theorem C10_positions_in_bounds (d s : ℚ) (hd : 0 < d) (hs : 0 < s) :
    0 ≤ (d - ⌊d / s⌋ * s) / 2
    ∧ ∀ x ∈ calculate_dot_positions d s, 0 ≤ x ∧ x ≤ d := by
  have h0 : 0 ≤ ⌊d / s⌋ := floor_div_nonneg d s hd hs
  have hspan : (⌊d / s⌋ : ℚ) * s ≤ d := span_le_dim d s hs
  have hmargin : 0 ≤ (d - ⌊d / s⌋ * s) / 2 := by linarith
  refine ⟨hmargin, ?_⟩
  intro x hx
  rw [calculate_dot_positions_def] at hx
  simp only [List.mem_map, List.mem_range] at hx
  obtain ⟨i, hi, rfl⟩ := hx
  have his : 0 ≤ (i : ℚ) * s := by positivity
  have hiz : (i : ℤ) ≤ ⌊d / s⌋ := by omega
  have hiq : (i : ℚ) ≤ (⌊d / s⌋ : ℚ) := by exact_mod_cast hiz
  have hiqs : (i : ℚ) * s ≤ (⌊d / s⌋ : ℚ) * s :=
    mul_le_mul_of_nonneg_right hiq hs.le
  constructor
  · linarith
  · linarith

/-- C10 witness at `dimension=95, spacing=10`. -/
theorem C10_positions_in_bounds_witness :
    (0 : ℚ) < 95 ∧ (0 : ℚ) < 10
    ∧ (0 ≤ ((95 : ℚ) - ⌊(95 : ℚ) / 10⌋ * 10) / 2
      ∧ ∀ x ∈ calculate_dot_positions 95 10, 0 ≤ x ∧ x ≤ 95) :=
  ⟨by norm_num, by norm_num,
    C10_positions_in_bounds 95 10 (by norm_num) (by norm_num)⟩

/-- C3 counterexample: at `dimension = -5 ≤ 0` and `spacing = 10`, the
layout engine raises no `InvalidParameter` error — it silently returns the
empty (degenerate) sequence, refuting the claim at this input.  There is
no input validation anywhere in `calculate_dot_positions`. -/
theorem C3_counterexample_silent_empty :
    calculate_dot_positions_checked (-5) 10 = Except.ok []
    ∧ calculate_dot_positions (-5) 10 = [] := by
  constructor
  · rw [calculate_dot_positions_checked, if_neg (by norm_num)]
    rw [calculate_dot_positions_def]
    norm_num
  · rw [calculate_dot_positions_def]
    norm_num

/-- C3 amended: the layout engine performs no parameter validation.  With
`spacing = 0` it fails with `ZeroDivisionError` (from the division), not
an `InvalidParameter` error; with any nonzero spacing it returns normally,
and in particular with a negative dimension and positive spacing it
silently returns the empty sequence. -/
theorem C3_amended_no_validation (d s : ℚ) :
    (s = 0 → calculate_dot_positions_checked d s
        = Except.error "ZeroDivisionError")
    ∧ (s ≠ 0 → calculate_dot_positions_checked d s
        = Except.ok (calculate_dot_positions d s))
    ∧ (d < 0 → 0 < s → calculate_dot_positions d s = []) := by
  refine ⟨?_, ?_, ?_⟩
  · intro hz
    rw [calculate_dot_positions_checked, if_pos hz]
  · intro hnz
    rw [calculate_dot_positions_checked, if_neg hnz]
  · intro hd hs
    have hneg : d / s < 0 := div_neg_of_neg_of_pos hd hs
    have hfl : ⌊d / s⌋ < 0 := by
      have : d / s < ((0 : ℤ) : ℚ) := by exact_mod_cast hneg
      exact Int.floor_lt.mpr this
    have hto : (⌊d / s⌋ + 1).toNat = 0 := by omega
    rw [calculate_dot_positions_def]
    rw [hto]
    rfl

/-- C3 amended witness at `dimension = -5`, `spacing = 10`. -/
theorem C3_amended_no_validation_witness :
    calculate_dot_positions_checked (-5 : ℚ) 10
        = Except.ok (calculate_dot_positions (-5) 10)
    ∧ calculate_dot_positions (-5 : ℚ) 10 = [] :=
  ⟨(C3_amended_no_validation (-5) 10).2.1 (by norm_num),
   (C3_amended_no_validation (-5) 10).2.2 (by norm_num) (by norm_num)⟩

/-- C7: for positive width and height, `create_half_white_overlay`
produces a single solid white-filled rectangle with no stroke; side
`"left"` covers exactly `[0, width/2] × [0, height]` and side `"right"`
covers exactly `[width/2, width] × [0, height]`. -/
theorem C7_half_mask (w h : ℚ) (hw : 0 < w) (hh : 0 < h) :
    create_half_white_overlay w h "left"
      = [DrawCmd.rect 0 0 (w / 2) h ⟨1, 1, 1⟩ false true]
    ∧ create_half_white_overlay w h "right"
      = [DrawCmd.rect (w / 2) 0 (w / 2) h ⟨1, 1, 1⟩ false true]
    ∧ (∀ px py, rect_covers 0 0 (w / 2) h px py
        ↔ (0 ≤ px ∧ px ≤ w / 2 ∧ 0 ≤ py ∧ py ≤ h))
    ∧ (∀ px py, rect_covers (w / 2) 0 (w / 2) h px py
        ↔ (w / 2 ≤ px ∧ px ≤ w ∧ 0 ≤ py ∧ py ≤ h)) := by
  refine ⟨?_, ?_, ?_, ?_⟩
  · simp [create_half_white_overlay]
  · simp [create_half_white_overlay]
  · intro px py
    unfold rect_covers
    constructor
    · rintro ⟨a, b, c, e⟩
      exact ⟨a, by linarith, c, by linarith⟩
    · rintro ⟨a, b, c, e⟩
      exact ⟨a, by linarith, c, by linarith⟩
  · intro px py
    unfold rect_covers
    constructor
    · rintro ⟨a, b, c, e⟩
      exact ⟨a, by linarith, c, by linarith⟩
    · rintro ⟨a, b, c, e⟩
      exact ⟨a, by linarith, c, by linarith⟩

/-- C7 witness at `width = 10`, `height = 20`. -/
theorem C7_half_mask_witness :
    (0 : ℚ) < 10 ∧ (0 : ℚ) < 20
    ∧ (create_half_white_overlay 10 20 "left"
        = [DrawCmd.rect 0 0 (10 / 2) 20 ⟨1, 1, 1⟩ false true]
      ∧ create_half_white_overlay 10 20 "right"
        = [DrawCmd.rect (10 / 2) 0 (10 / 2) 20 ⟨1, 1, 1⟩ false true]
      ∧ (∀ px py, rect_covers 0 0 ((10 : ℚ) / 2) 20 px py
          ↔ (0 ≤ px ∧ px ≤ 10 / 2 ∧ 0 ≤ py ∧ py ≤ 20))
      ∧ (∀ px py, rect_covers ((10 : ℚ) / 2) 0 (10 / 2) 20 px py
          ↔ (10 / 2 ≤ px ∧ px ≤ 10 ∧ 0 ≤ py ∧ py ≤ 20))) :=
  ⟨by norm_num, by norm_num, C7_half_mask 10 20 (by norm_num) (by norm_num)⟩

/-- C9: an opacity outside `[0.0, 1.0]` supplied through the external
configuration file is replaced with the default at load time with a
warning; an opacity outside that range supplied directly to the rendering
function is rejected as `InvalidParameter` (the rejection itself performed
by the external drawing surface, modelled from the spec). -/
theorem C9_opacity_validation :
    (∀ (tm : TomlDotMatrix) (op : ℚ), tm.opacity = some op →
        ¬(0 ≤ op ∧ op ≤ 1) →
        (load_config_from_toml true tm).1.opacity = defaultConfig.opacity
        ∧ (load_config_from_toml true tm).2 = true)
    ∧ (∀ (w h : ℚ) (config : DotMatrixConfig) (sb : Bool),
        ¬(0 ≤ config.opacity ∧ config.opacity ≤ 1) →
        create_dot_matrix_overlay_checked w h config sb
          = Except.error "InvalidParameter") := by
  constructor
  · intro tm op hop hrange
    have hok : decide (0 ≤ op ∧ op ≤ 1) = false := decide_eq_false hrange
    constructor
    · simp [load_config_from_toml, hop, hok]
    · simp [load_config_from_toml, hop, hok]
  · intro w h config sb hrange
    rw [create_dot_matrix_overlay_checked, if_neg hrange]

/-- C9 witness: opacity `2` from the config file is replaced by the
default `1` with a warning; opacity `2` passed to the renderer is
rejected. -/
theorem C9_opacity_validation_witness :
    (load_config_from_toml true ⟨none, none, none, some 2⟩).1.opacity
        = defaultConfig.opacity
    ∧ (load_config_from_toml true ⟨none, none, none, some 2⟩).2 = true
    ∧ create_dot_matrix_overlay_checked 10 10 ⟨10, 0.4, "#a0a0a0", 2⟩ false
        = Except.error "InvalidParameter" :=
  ⟨(C9_opacity_validation.1 ⟨none, none, none, some 2⟩ 2 rfl (by norm_num)).1,
   (C9_opacity_validation.1 ⟨none, none, none, some 2⟩ 2 rfl (by norm_num)).2,
   C9_opacity_validation.2 10 10 ⟨10, 0.4, "#a0a0a0", 2⟩ false (by norm_num)⟩

/-! ## Helper lemmas on the compositor pipeline -/

theorem length_flatMap_pair {α β : Type} (l : List α) (f g : α → List β) :
    (l.flatMap (fun x => [f x, g x])).length = 2 * l.length := by
  induction l with
  | nil => rfl
  | cons p t ih =>
      simp only [List.flatMap_cons, List.length_append, List.length_cons,
        List.length_nil, List.length_cons, ih]
      omega

theorem process_pdf_no_split (pages : List InPage) (config : DotMatrixConfig)
    (sb : Bool) :
    process_pdf pages config false sb
      = pages.map (fun page =>
          [Layer.original page.content,
           Layer.overlay (create_dot_matrix_overlay page.width_pt page.height_pt
             config false)]) := by
  induction pages with
  | nil => rfl
  | cons p t ih =>
      simp only [process_pdf, List.flatMap_cons, List.map_cons, merge_page] at ih ⊢
      rw [ih]
      simp [merge_page]

theorem process_pdf_split (pages : List InPage) (config : DotMatrixConfig)
    (sb : Bool) :
    process_pdf pages config true sb
      = pages.flatMap (fun page =>
          [[Layer.original page.content,
            Layer.overlay (create_half_white_overlay page.width_pt page.height_pt
              "right"),
            Layer.overlay (create_dot_matrix_overlay page.width_pt page.height_pt
              config sb)],
           [Layer.original page.content,
            Layer.overlay (create_half_white_overlay page.width_pt page.height_pt
              "left"),
            Layer.overlay (create_dot_matrix_overlay page.width_pt page.height_pt
              config sb)]]) := by
  induction pages with
  | nil => rfl
  | cons p t ih =>
      simp only [process_pdf, List.flatMap_cons, merge_page] at ih ⊢
      rw [ih]
      simp [merge_page]

/-! ## Claims about the compositor pipeline -/

/-- C5: with `split=false`, `process_pdf` emits one output page per input
page in order, the original content with the dot overlay on top; with
`split=true` it emits exactly two consecutive output pages per input page,
the right-covering mask page first and the left-covering mask page second;
output length is the input length, respectively twice it. -/
theorem C5_page_counts (pages : List InPage) (config : DotMatrixConfig)
    (split_border : Bool) :
    process_pdf pages config false split_border
      = pages.map (fun page =>
          [Layer.original page.content,
           Layer.overlay (create_dot_matrix_overlay page.width_pt page.height_pt
             config false)])
    ∧ process_pdf pages config true split_border
      = pages.flatMap (fun page =>
          [[Layer.original page.content,
            Layer.overlay (create_half_white_overlay page.width_pt page.height_pt
              "right"),
            Layer.overlay (create_dot_matrix_overlay page.width_pt page.height_pt
              config split_border)],
           [Layer.original page.content,
            Layer.overlay (create_half_white_overlay page.width_pt page.height_pt
              "left"),
            Layer.overlay (create_dot_matrix_overlay page.width_pt page.height_pt
              config split_border)]])
    ∧ (process_pdf pages config false split_border).length = pages.length
    ∧ (process_pdf pages config true split_border).length = 2 * pages.length := by
  refine ⟨process_pdf_no_split pages config split_border,
    process_pdf_split pages config split_border, ?_, ?_⟩
  · rw [process_pdf_no_split, List.length_map]
  · rw [process_pdf_split]
    exact length_flatMap_pair pages _ _

/-- C6: every output page emitted in split mode consists of exactly three
layers, bottom-to-top: the original page content at the bottom, the
half-page white mask above it (the mask was the base object, with the
original merged under it, so the mask hides the masked half), and the
dot-grid overlay on top of everything. -/
theorem C6_split_layers (pages : List InPage) (config : DotMatrixConfig)
    (split_border : Bool) (out : List Layer)
    (hout : out ∈ process_pdf pages config true split_border) :
    ∃ page ∈ pages, ∃ cover_side ∈ (["right", "left"] : List String),
      out = [Layer.original page.content,
             Layer.overlay (create_half_white_overlay page.width_pt
               page.height_pt cover_side),
             Layer.overlay (create_dot_matrix_overlay page.width_pt
               page.height_pt config split_border)] := by
  rw [process_pdf_split] at hout
  rw [List.mem_flatMap] at hout
  obtain ⟨page, hpage, hmem⟩ := hout
  rw [List.mem_cons, List.mem_cons] at hmem
  rcases hmem with hm | hm | hm
  · exact ⟨page, hpage, "right", by simp, hm⟩
  · exact ⟨page, hpage, "left", by simp, hm⟩
  · simp at hm

/-- C6 witness: the first output page of a one-page split run. -/
theorem C6_split_layers_witness :
    ∃ page ∈ [InPage.mk 10 10 7], ∃ cover_side ∈ (["right", "left"] : List String),
      [Layer.original 7,
       Layer.overlay (create_half_white_overlay 10 10 "right"),
       Layer.overlay (create_dot_matrix_overlay 10 10 defaultConfig false)]
        = [Layer.original page.content,
           Layer.overlay (create_half_white_overlay page.width_pt
             page.height_pt cover_side),
           Layer.overlay (create_dot_matrix_overlay page.width_pt
             page.height_pt defaultConfig false)] :=
  C6_split_layers [InPage.mk 10 10 7] defaultConfig false
    [Layer.original 7,
     Layer.overlay (create_half_white_overlay 10 10 "right"),
     Layer.overlay (create_dot_matrix_overlay 10 10 defaultConfig false)]
    (by rw [process_pdf_split]
        simp only [List.flatMap_cons, List.flatMap_nil, List.append_nil]
        exact List.mem_cons_self _ _)

theorem filter_border_create_dot_matrix_overlay (w h : ℚ)
    (config : DotMatrixConfig) (b : Bool) :
    (create_dot_matrix_overlay w h config b).filter isBorderLine =
      if b && !(calculate_dot_positions (points_to_mm h)
            config.dot_spacing_mm).isEmpty then
        [DrawCmd.line (w / 2)
          (mm_to_points (calculate_dot_positions (points_to_mm h)
            config.dot_spacing_mm).headI)
          (w / 2)
          (mm_to_points (calculate_dot_positions (points_to_mm h)
            config.dot_spacing_mm).getLastI)
          (mm_to_points config.dot_diameter_mm) config.dot_color_rgb
          config.opacity]
      else [] := by
  simp only [create_dot_matrix_overlay, List.filter_append]
  have hdots : List.filter isBorderLine
      ((calculate_dot_positions (points_to_mm w) config.dot_spacing_mm).flatMap
        (fun x_mm => (calculate_dot_positions (points_to_mm h)
            config.dot_spacing_mm).map
          (fun y_mm => DrawCmd.circle (mm_to_points x_mm) (mm_to_points y_mm)
            (mm_to_points config.dot_radius_mm) config.dot_color_rgb
            config.opacity))) = [] := by
    rw [List.filter_eq_nil_iff]
    intro a ha
    rw [List.mem_flatMap] at ha
    obtain ⟨x, hx, ha⟩ := ha
    rw [List.mem_map] at ha
    obtain ⟨y, hy, rfl⟩ := ha
    simp [isBorderLine]
  rw [hdots, List.nil_append]
  cases hcond : b && !(calculate_dot_positions (points_to_mm h)
      config.dot_spacing_mm).isEmpty with
  | false => simp [hcond]
  | true => simp [hcond, isBorderLine]

/-- C8: for every page emitted by `process_pdf`, the border line is drawn
if and only if both `split` and `split_border` are true and the page's
y-position set is non-empty; when drawn it is the single vertical line at
`width/2` from the first to the last y-offset, with stroke width equal to
the configured dot diameter and the same dot colour and opacity. -/
theorem C8_border_iff (pages : List InPage) (config : DotMatrixConfig)
    (split split_border : Bool) (out : List Layer)
    (hout : out ∈ process_pdf pages config split split_border) :
    ∃ page ∈ pages,
      (page_cmds out).filter isBorderLine =
        if split && split_border
            && !(calculate_dot_positions (points_to_mm page.height_pt)
                  config.dot_spacing_mm).isEmpty then
          [DrawCmd.line (page.width_pt / 2)
            (mm_to_points (calculate_dot_positions (points_to_mm page.height_pt)
              config.dot_spacing_mm).headI)
            (page.width_pt / 2)
            (mm_to_points (calculate_dot_positions (points_to_mm page.height_pt)
              config.dot_spacing_mm).getLastI)
            (mm_to_points config.dot_diameter_mm) config.dot_color_rgb
            config.opacity]
        else [] := by
  cases split with
  | false =>
      rw [process_pdf_no_split, List.mem_map] at hout
      obtain ⟨page, hpage, rfl⟩ := hout
      refine ⟨page, hpage, ?_⟩
      simp only [page_cmds, List.append_nil]
      rw [filter_border_create_dot_matrix_overlay]
      simp
  | true =>
      rw [process_pdf_split, List.mem_flatMap] at hout
      obtain ⟨page, hpage, hmem⟩ := hout
      refine ⟨page, hpage, ?_⟩
      have hmaskR : List.filter isBorderLine
          (create_half_white_overlay page.width_pt page.height_pt "right")
            = [] := by
        simp [create_half_white_overlay, isBorderLine]
      have hmaskL : List.filter isBorderLine
          (create_half_white_overlay page.width_pt page.height_pt "left")
            = [] := by
        simp [create_half_white_overlay, isBorderLine]
      rw [List.mem_cons, List.mem_cons] at hmem
      rcases hmem with rfl | rfl | hm
      · simp only [page_cmds, List.append_nil, List.filter_append]
        rw [hmaskR, filter_border_create_dot_matrix_overlay, List.nil_append]
        simp
      · simp only [page_cmds, List.append_nil, List.filter_append]
        rw [hmaskL, filter_border_create_dot_matrix_overlay, List.nil_append]
        simp
      · simp at hm

/-- C8 witness: the first output page of a one-page run with `split` and
`split_border` both on. -/
theorem C8_border_iff_witness :
    ∃ page ∈ [InPage.mk 10 10 7],
      (page_cmds [Layer.original 7,
         Layer.overlay (create_half_white_overlay 10 10 "right"),
         Layer.overlay (create_dot_matrix_overlay 10 10 defaultConfig
           true)]).filter isBorderLine =
        if true && true
            && !(calculate_dot_positions (points_to_mm page.height_pt)
                  defaultConfig.dot_spacing_mm).isEmpty then
          [DrawCmd.line (page.width_pt / 2)
            (mm_to_points (calculate_dot_positions (points_to_mm page.height_pt)
              defaultConfig.dot_spacing_mm).headI)
            (page.width_pt / 2)
            (mm_to_points (calculate_dot_positions (points_to_mm page.height_pt)
              defaultConfig.dot_spacing_mm).getLastI)
            (mm_to_points defaultConfig.dot_diameter_mm)
            defaultConfig.dot_color_rgb defaultConfig.opacity]
        else [] :=
  C8_border_iff [InPage.mk 10 10 7] defaultConfig true true
    [Layer.original 7,
     Layer.overlay (create_half_white_overlay 10 10 "right"),
     Layer.overlay (create_dot_matrix_overlay 10 10 defaultConfig true)]
    (by rw [process_pdf_split]
        simp only [List.flatMap_cons, List.flatMap_nil, List.append_nil]
        exact List.mem_cons_self _ _)

end PDFSpliter
